import Mathlib

/-!
# Verification of the thermal-tank analysis pipeline

Shallow embedding of the core algorithms of the repository:

* `steps/2_image_proccessing.py` (`ThermalAnalyzer`): interface selection over
  candidate gradient peaks, temperature-sequence scoring, layer computation;
* `steps/4_reliability_analysis.py` (`ReliabilityAnalyzer`): rolling-sigma
  computation, batch classification, reliability correlation;
* `steps/5_realtime_predictor.py` (`RealtimeThermalPredictor`): reliability
  scoring against a reference profile and the per-image prediction wrapper.

Numeric values are modelled with `ℚ` (all operations appearing in the claims —
comparisons, additions, divisions by exact constants — behave identically over
the rationals and over IEEE doubles on the inputs considered); square roots and
exponentials, where the source uses them, are modelled over `ℝ`.
-/

namespace Petronor

/-! ## Image processing (`ThermalAnalyzer`)

An image is a list of rows of brightness values (`img[r][c]`), matching the
row-major NumPy array the Python code manipulates. -/

abbrev Image := List (List ℚ)

/-- Embeds `np.mean(r) if r.size > 0 else 0` over a flattened block of cells. -/
def meanOrZero (cells : List ℚ) : ℚ :=
  if cells.length = 0 then 0 else cells.sum / cells.length

/-- Embeds `ThermalAnalyzer.TEMP_RANGES`: the calibrated brightness range per layer. -/
def tempRange : String → ℚ × ℚ
  | "aire" => (0, 70)
  | "agua" => (70, 130)
  | "emulsion" => (130, 180)
  | "crudo" => (180, 255)
  | _ => (0, 0)

/-- Embeds `ThermalAnalyzer._check_range`: full weight inside the calibrated range,
half weight above it, minus half weight below it. -/
def checkRange (temp : ℚ) (layer : String) (weight : ℚ) : ℚ :=
  let lo := (tempRange layer).1
  let hi := (tempRange layer).2
  if lo ≤ temp ∧ temp ≤ hi then weight
  else if temp > hi then weight / 2
  else -weight / 2

/-- Embeds `ThermalAnalyzer._score_temperature_sequence`: hard reject unless
`top > middle > bottom`, else the three range-membership scores plus the two
separation bonuses. -/
def scoreTemperatureSequence (top middle bottom : ℚ) : ℚ :=
  if ¬(top > middle ∧ middle > bottom) then -100
  else
    checkRange top "crudo" 5 + checkRange middle "emulsion" 5 +
      checkRange bottom "agua" 5 +
      (if top - middle > 10 then 3 else 0) +
      (if middle - bottom > 10 then 3 else 0)

/-- Embeds `ThermalAnalyzer._get_regions` followed by the per-region means: the bands
`img[:t]`, `img[t:b]`, `img[b:]`, each averaged (`0` for an empty band). -/
def regionTemps (img : Image) (t b : ℕ) : ℚ × ℚ × ℚ :=
  (meanOrZero (img.take t).flatten,
   meanOrZero ((img.drop t).take (b - t)).flatten,
   meanOrZero (img.drop b).flatten)

/-- Score of one candidate pair `(t, b)`:
`self._score_temperature_sequence(*temps)`. -/
def pairScore (img : Image) (t b : ℕ) : ℚ :=
  scoreTemperatureSequence (regionTemps img t b).1 (regionTemps img t b).2.1
    (regionTemps img t b).2.2

/-- Embeds `np.argsort(props['prominences'])[::-1][:min(6, len(peaks))]`: candidate
indices sorted by prominence, most prominent first, at most six kept.  NumPy's
quicksort leaves the relative order of equal prominences unspecified; the
embedding determinizes it with a stable sort. -/
def candOrder (peaks : List ℕ) (proms : List ℚ) : List ℕ :=
  (List.insertionSort (fun i j => proms.getD j 0 ≤ proms.getD i 0)
    (List.range peaks.length)).take 6

/-- Embeds `top_peaks = peaks[idx_sorted[:min(6, len(peaks))]]`. -/
def topPeaks (peaks : List ℕ) (proms : List ℚ) : List ℕ :=
  (candOrder peaks proms).map (fun i => peaks.getD i 0)

/-- The enumeration order of the double loop
`for i, t in enumerate(top_peaks): for b in top_peaks[i+1:]`. -/
def pairsFrom : List ℕ → List (ℕ × ℕ)
  | [] => []
  | t :: rest => rest.map (fun b => (t, b)) ++ pairsFrom rest

/-- All pairs the double loop visits (before the `t >= b` test). -/
def candidatePairs (peaks : List ℕ) (proms : List ℚ) : List (ℕ × ℕ) :=
  pairsFrom (topPeaks peaks proms)

/-- The pairs the loop actually scores: visited pairs with `t < b`. -/
def validCandidatePairs (peaks : List ℕ) (proms : List ℚ) : List (ℕ × ℕ) :=
  (candidatePairs peaks proms).filter (fun p => decide (p.1 < p.2))

/-- The body of the selection loop: skip pairs with `t >= b`, otherwise keep
the pair whenever its score strictly improves on the best so far. -/
def scanPairs (img : Image) (acc : (ℕ × ℕ) × ℚ) : List (ℕ × ℕ) → (ℕ × ℕ) × ℚ
  | [] => acc
  | (t, b) :: rest =>
    if b ≤ t then scanPairs img acc rest
    else if pairScore img t b > acc.2 then scanPairs img ((t, b), pairScore img t b) rest
    else scanPairs img acc rest

/-- Embeds `ThermalAnalyzer._select_valid_interfaces`: initial best is the fallback
pair `(H//3, 2*H//3)` with score `-1`; the loop scans the candidate pairs in
enumeration order. -/
def selectValidInterfaces (img : Image) (peaks : List ℕ) (proms : List ℚ) :
    (ℕ × ℕ) × ℚ :=
  scanPairs img ((img.length / 3, 2 * img.length / 3), -1)
    (candidatePairs peaks proms)

/-- Embeds `ThermalAnalyzer._calculate_layers`: absolute thicknesses (Python ints,
hence `ℤ`) and the three ratios (true division, hence `ℚ`). -/
structure Layers where
  crudo_px : ℤ
  emulsion_px : ℤ
  agua_px : ℤ
  crudo_ratio : ℚ
  emulsion_ratio : ℚ
  agua_ratio : ℚ
deriving DecidableEq

def calculateLayers (img : Image) (top bottom : ℕ) : Layers :=
  let H : ℕ := img.length
  { crudo_px := (top : ℤ)
    emulsion_px := (bottom : ℤ) - (top : ℤ)
    agua_px := (H : ℤ) - (bottom : ℤ)
    crudo_ratio := (top : ℚ) / (H : ℚ)
    emulsion_ratio := ((bottom : ℚ) - (top : ℚ)) / (H : ℚ)
    agua_ratio := ((H : ℚ) - (bottom : ℚ)) / (H : ℚ) }

/-! ### Spec-side definitions (claim readings, for refinement comparison) -/

/-- Spec-side reading of the claimed per-layer range-membership score:
full weight `5` inside the calibrated range, `+2.5` above it, `-2.5` below. -/
def specLayerScore (x lo hi : ℚ) : ℚ :=
  if lo ≤ x ∧ x ≤ hi then 5 else if hi < x then 5 / 2 else -(5 / 2)

/-- Spec-side reading of the claimed `score_sequence` shape. -/
def specScoreSequence (t m b : ℚ) : ℚ :=
  if t ≤ m ∨ m ≤ b then -100
  else
    specLayerScore t 180 255 + specLayerScore m 130 180 + specLayerScore b 70 130 +
      (if t - m > 10 then 3 else 0) + (if m - b > 10 then 3 else 0)

/-- Spec-side reading of the interface-selection claim: enumerate every
ordered pair `(t, b)` with `t < b` drawn from the top candidates and return
the first pair of maximal score. -/
def specAllOrderedPairs (peaks : List ℕ) (proms : List ℚ) : List (ℕ × ℕ) :=
  (topPeaks peaks proms).flatMap (fun t =>
    (topPeaks peaks proms).filterMap (fun b => if t < b then some (t, b) else none))

def specSelectInterfaces (img : Image) (peaks : List ℕ) (proms : List ℚ) :
    Option (ℕ × ℕ) :=
  (specAllOrderedPairs peaks proms).foldl
    (fun best p =>
      match best with
      | none => some p
      | some q => if pairScore img p.1 p.2 > pairScore img q.1 q.2 then some p else some q)
    none

/-! ## Reliability analysis (`ReliabilityAnalyzer`)

A historical dataset is modelled as a list of column names plus a list of
rows; a row assigns an optional rational to each column name (`none` stands
for an absent column or a `NaN` cell, which pandas treats alike in the
operations the claims cover). -/

structure DFrame where
  cols : List String
  rows : List (String → Option ℚ)

/-- Population mean (NumPy `mean`). -/
def qmean (xs : List ℚ) : ℚ := if xs.length = 0 then 0 else xs.sum / xs.length

/-- Population variance (`ddof=0`, the square of NumPy `std`). -/
def qvar (xs : List ℚ) : ℚ := qmean (xs.map (fun x => (x - qmean xs) ^ 2))

/-- The values of one column, row by row (`df[col].values`; the sigma columns
the classifier reads are non-null after the fill step, so the `getD 0`
default is never exercised on the inputs of interest). -/
def colVals (df : DFrame) (c : String) : List ℚ :=
  df.rows.map (fun r => (r c).getD 0)

/-- One normalized entry of `classify_batches`: NumPy computes
`(x - mean) / std` when `std > 0` and writes `0` otherwise; `std` is the
square root of the population variance, so the value lives in `ℝ`. -/
noncomputable def normEntry (xs : List ℚ) (x : ℚ) : ℝ :=
  if Real.sqrt (qvar xs) > 0 then
    ((x : ℝ) - (qmean xs : ℝ)) / Real.sqrt (qvar xs)
  else 0

/-- Embeds `sigma_combined`: per row, the arithmetic mean over the valid sigma
columns of the normalized entries (`np.mean(sigma_normalized, axis=1)`). -/
noncomputable def sigmaCombined (df : DFrame) (validCols : List String) : List ℝ :=
  df.rows.map (fun r =>
    ((validCols.map (fun c => normEntry (colVals df c) ((r c).getD 0))).sum) /
      (validCols.length : ℝ))

/-- Embeds `np.median`: middle element of the sorted data, or the mean of the two
middle elements for even length. -/
noncomputable def medianR (xs : List ℝ) : ℝ :=
  let s := List.insertionSort (fun a b : ℝ => a ≤ b) xs
  if xs.length = 0 then 0
  else if xs.length % 2 = 1 then s.getD (xs.length / 2) 0
  else (s.getD (xs.length / 2 - 1) 0 + s.getD (xs.length / 2) 0) / 2

/-- Embeds `ReliabilityAnalyzer.classify_batches`, reduced to the per-row
`batch_type` labels (the claims do not touch the added `sigma_combined`
column beyond the values used here). `thresholdOpt` is `self.sigma_threshold`. -/
noncomputable def classifyBatches (thresholdOpt : Option ℚ) (df : DFrame)
    (sigmaColumns : List String) : List String :=
  let valid := sigmaColumns.filter (fun c => df.cols.contains c)
  if valid = [] then df.rows.map (fun _ => "desconocido")
  else
    let comb := sigmaCombined df valid
    let th : ℝ :=
      match thresholdOpt with
      | some t => (t : ℝ)
      | none => medianR comb
    comb.map (fun x => if x ≤ th then "estable" else "turbulento")

/-! ### `ReliabilityAnalyzer.compute_sigma` -/

/-- Name of the derived column: `f'sigma_{col}'`. -/
def sigmaName (c : String) : String := "sigma_" ++ c

/-- Sort key for `df.sort_values('Día')`; a missing/`NaN` cell sorts last
(`na_position='last'`), modelled as the top element. -/
def diaKey (r : String → Option ℚ) : WithTop ℚ :=
  match r "Día" with
  | some d => (d : WithTop ℚ)
  | none => ⊤

/-- Embeds `df.sort_values('Día').reset_index(drop=True)`: rows reordered by the
`Día` value (pandas' default quicksort leaves the relative order of equal
keys unspecified; the embedding determinizes it with a stable sort). -/
def sortByDia (rows : List (String → Option ℚ)) : List (String → Option ℚ) :=
  List.insertionSort (fun a b => diaKey a ≤ diaKey b) rows

/-- The cells a centered rolling window of size `w` sees at position `i`
(pandas clips the window at the edges; `NaN` cells are dropped from the
window's observations). -/
def windowSlice (w : ℕ) (xs : List (Option ℚ)) (i : ℕ) : List ℚ :=
  let lo := i - w / 2
  let hi := i + (w - 1) / 2
  (((xs.drop lo).take (hi + 1 - lo)).filterMap id)

/-- Sample variance (`ddof=1`); `none` (`NaN`) with fewer than two
observations.  The source stores the rolling standard deviation, i.e. the
square root of this value; the square root is irrational in general and no
claim constrains the stored magnitude, so the embedding keeps the variance. -/
def sampleVar (ys : List ℚ) : Option ℚ :=
  if ys.length < 2 then none
  else some ((ys.map (fun y => (y - qmean ys) ^ 2)).sum / ((ys.length : ℚ) - 1))

/-- Embeds `df[col].rolling(window=w, min_periods=1, center=True).std()`. -/
def rollingStd (w : ℕ) (xs : List (Option ℚ)) : List (Option ℚ) :=
  (List.range xs.length).map (fun i => sampleVar (windowSlice w xs i))

/-- Embeds `.bfill()`: each missing cell takes the next present value below it. -/
def bfill : List (Option ℚ) → List (Option ℚ)
  | [] => []
  | x :: rest =>
    let r := bfill rest
    (match x with
     | some v => some v
     | none => r.headD none) :: r

/-- Embeds `.ffill()`: each missing cell takes the last present value above it. -/
def ffill (carry : Option ℚ) : List (Option ℚ) → List (Option ℚ)
  | [] => []
  | x :: rest =>
    match x with
    | some v => some v :: ffill (some v) rest
    | none => carry :: ffill carry rest

/-- The full per-column transform of `compute_sigma`. -/
def sigmaTransform (w : ℕ) (xs : List (Option ℚ)) : List (Option ℚ) :=
  ffill none (bfill (rollingStd w xs))

/-- Embeds `df[name] = vals`: adds the column (or overwrites it when present). -/
def setCol (df : DFrame) (name : String) (vals : List (Option ℚ)) : DFrame :=
  { cols := if name ∈ df.cols then df.cols else df.cols ++ [name]
    rows := List.zipWith (fun r v => fun k => if k = name then v else r k) df.rows vals }

/-- Embeds `ReliabilityAnalyzer.compute_sigma`: sort by `Día` when that column
exists, then add one `sigma_<col>` column per requested column present. -/
def computeSigma (w : ℕ) (df : DFrame) (columns : List String) : DFrame :=
  let df1 : DFrame :=
    if "Día" ∈ df.cols then { cols := df.cols, rows := sortByDia df.rows }
    else df
  columns.foldl
    (fun acc c =>
      if c ∈ acc.cols then
        setCol acc (sigmaName c) (sigmaTransform w (acc.rows.map (fun r => r c)))
      else acc)
    df1

/-! ### `ReliabilityAnalyzer.correlate_reliability` -/

/-- One row of the analysis dataset: the `status` and `batch_type` columns
(strings) plus the numeric columns. -/
structure ARow where
  status : String
  batch : String
  val : String → Option ℚ

structure ADF where
  cols : List String
  rows : List ARow

/-- One entry of the correlation dictionary. -/
structure CorrEntry where
  correlation : ℚ
  p_value : ℚ
  significant : Bool
  n_samples : ℕ
deriving DecidableEq

/-- The fixed `thermal_vars` list of `correlate_reliability`. -/
def thermalVars : List String :=
  ["thermal_gradient_max", "thermal_gradient_std", "thermal_interface_confidence",
   "thermal_emulsion_ratio", "thermal_agua_ratio"]

/-- Embeds `[col for col in df_valid.columns if col.startswith('sigma_')]` (the
prefix test is taken on the underlying character lists, which is what
`str.startswith` computes). -/
def sigmaVars (df : ADF) : List String :=
  df.cols.filter (fun c => "sigma_".data.isPrefixOf c.data)

/-- The `df_valid` filter: `status == 'success'` and a resolved batch type. -/
def validRows (df : ADF) : List ARow :=
  df.rows.filter (fun r =>
    r.status == "success" && (r.batch == "estable" || r.batch == "turbulento"))

/-- The rows where both columns are non-null
(`df_valid[[thermal_var, sigma_var]].notna().all(axis=1)`), paired as
`(sigma value, thermal value)`. -/
def pairedObs (rows : List ARow) (tv sv : String) : List (ℚ × ℚ) :=
  rows.filterMap (fun r =>
    match r.val sv, r.val tv with
    | some x, some y => some (x, y)
    | _, _ => none)

/-- One inner entry of the correlation loop: skipped (`continue`) with fewer
than 3 paired observations, else built from `pearsonr(x, y)`.  `pearson` is
the statistical oracle (`scipy.stats.pearsonr` / `spearmanr`), passed in
abstractly — with at least 3 paired points it returns a coefficient and a
p-value without raising, so the `try/except` is never exercised. -/
def corrEntry (rows : List ARow) (tv sv : String)
    (pearson : List ℚ → List ℚ → ℚ × ℚ) : Option CorrEntry :=
  let obs := pairedObs rows tv sv
  if obs.length < 3 then none
  else
    let cp := pearson (obs.map Prod.fst) (obs.map Prod.snd)
    some { correlation := cp.1, p_value := cp.2,
           significant := decide (cp.2 < 1 / 10), n_samples := obs.length }

/-- Embeds `ReliabilityAnalyzer.correlate_reliability` as a nested association list:
empty with fewer than 10 valid rows, else one outer entry per thermal
variable present, each holding the non-skipped sigma entries. -/
def correlateReliability (df : ADF)
    (pearson : List ℚ → List ℚ → ℚ × ℚ) : List (String × List (String × CorrEntry)) :=
  let valid := validRows df
  if valid.length < 10 then []
  else
    (thermalVars.filter (fun tv => df.cols.contains tv)).map (fun tv =>
      (tv, (sigmaVars df).filterMap (fun sv =>
        (corrEntry valid tv sv pearson).map (fun e => (sv, e)))))

/-! ## Realtime predictor (`RealtimeThermalPredictor`) -/

/-- The slice of a reference profile that `calculate_reliability_score`
reads (`median`, `q25`, `q75` are built but never used by the scorer). -/
structure RefStat where
  mean : ℚ
  std : ℚ
deriving DecidableEq

/-- The weighted `key_vars` list of `calculate_reliability_score`. -/
def keyVars : List (String × ℚ) :=
  [("thermal_gradient_max", 1 / 4), ("thermal_interface_confidence", 3 / 10),
   ("thermal_emulsion_ratio", 1 / 5), ("thermal_agua_ratio", 3 / 20),
   ("thermal_crudo_ratio", 1 / 10)]

/-- One sub-score: exact-match test when the reference std is 0, otherwise
`100 * exp(-z/2)` of the absolute z-score, clamped to `[0, 100]`. -/
noncomputable def subScore (ref : RefStat) (v : ℚ) : ℝ :=
  if ref.std = 0 then (if |v - ref.mean| < 1 / 100 then 100 else 50)
  else
    max 0 (min 100
      (100 * Real.exp (-|((v : ℝ) - (ref.mean : ℝ)) / (ref.std : ℝ)| / 2)))

/-- Embeds `RealtimeThermalPredictor.calculate_reliability_score`: neutral `50` on an
empty reference profile; per weighted feature, skip it when absent from the
record (or null — both modelled as `none`) or from the reference, else add its
sub-score; neutral `50` when no sub-score was computed, else the weighted
average `np.average(scores, weights=weights)`. -/
noncomputable def calculateReliabilityScore (profiles : List (String × RefStat))
    (features : String → Option ℚ) : ℝ :=
  if profiles = [] then 50
  else
    let sw := keyVars.filterMap (fun p =>
      match features p.1, profiles.lookup p.1 with
      | some v, some ref => some (subScore ref v, p.2)
      | _, _ => none)
    if sw = [] then 50
    else (sw.map (fun s => s.1 * (s.2 : ℝ))).sum / ((sw.map (fun s => s.2)).sum : ℚ)

/-- Embeds `classify_reliability_category`. -/
noncomputable def classifyReliabilityCategory (score : ℝ) : String :=
  if score ≥ 80 then "alta" else if score ≥ 60 then "media" else "baja"

/-! ### `predict_new_image`

The returned Python dictionaries are modelled as association lists with
first-match lookup; `{**a, 'k': v}` prepends the new bindings. -/

inductive DVal
  | num (q : ℚ)
  | rnum (x : ℝ)
  | str (s : String)
  | null

abbrev Dict := List (String × DVal)

/-- Embeds `ThermalAnalyzer._default_output`: the fixed-shape zeroed record. -/
def defaultOutput (status : String) : Dict :=
  [("status", DVal.str status),
   ("thermal_interface_top_px", DVal.num 0),
   ("thermal_interface_bottom_px", DVal.num 0),
   ("thermal_interface_confidence", DVal.num 0),
   ("thermal_crudo_px", DVal.num 0),
   ("thermal_emulsion_px", DVal.num 0),
   ("thermal_agua_px", DVal.num 0),
   ("thermal_crudo_ratio", DVal.num 0),
   ("thermal_emulsion_ratio", DVal.num 0),
   ("thermal_agua_ratio", DVal.num 0),
   ("thermal_temp_crudo_mean", DVal.num 0),
   ("thermal_temp_emulsion_mean", DVal.num 0),
   ("thermal_temp_agua_mean", DVal.num 0),
   ("thermal_gradient_max", DVal.num 0),
   ("thermal_gradient_std", DVal.num 0)]

/-- The possible outcomes of `ThermalAnalyzer.process_image` once the file
exists: an exception inside the `try` block, fewer than 2 gradient peaks, or
a successful extraction producing a feature record. -/
inductive ProcOutcome
  | loadFailure
  | tooFewPeaks
  | ok (features : Dict)

/-- Embeds `ThermalAnalyzer.process_image`, abstracted over the image-decoding
outcome. -/
def processImage (existsOnDisk : Bool) (outcome : ProcOutcome) : Dict :=
  if !existsOnDisk then defaultOutput "not_found"
  else
    match outcome with
    | ProcOutcome.loadFailure => defaultOutput "processing_error"
    | ProcOutcome.tooFewPeaks => defaultOutput "no_interfaces_detected"
    | ProcOutcome.ok f => f

/-- Embeds `process_image_fast`: the analyzer output extended with timing and path
metadata. -/
def processImageFast (existsOnDisk : Bool) (outcome : ProcOutcome)
    (pt : ℚ) (path fname : String) : Dict :=
  [("processing_time", DVal.num pt), ("image_path", DVal.str path),
   ("image_filename", DVal.str fname)] ++ processImage existsOnDisk outcome

/-- Embeds `features.get('status') == 'success'`. -/
def isSuccessStatus (d : Dict) : Bool :=
  match d.lookup "status" with
  | some (DVal.str s) => s == "success"
  | _ => false

/-- Numeric view of a feature dictionary, feeding the scorer. -/
def featureVal (d : Dict) (k : String) : Option ℚ :=
  match d.lookup k with
  | some (DVal.num q) => some q
  | _ => none

/-- Embeds `RealtimeThermalPredictor.predict_new_image`: early return for a missing
file; a non-`success` status short-circuits to score `0` / category `baja`;
otherwise the scored record.  `timestamp` is the (possibly absent) parsed
filename timestamp, `pt`/`tt` the measured wall-clock durations. -/
noncomputable def predictNewImage (profiles : List (String × RefStat))
    (existsOnDisk : Bool) (outcome : ProcOutcome) (pt tt : ℚ)
    (path fname : String) (timestamp : Option String) : Dict :=
  if !existsOnDisk then
    [("error", DVal.str "image_not_found"),
     ("reliability_score", DVal.num 0),
     ("reliability_category", DVal.str "baja")]
  else
    let features := processImageFast existsOnDisk outcome pt path fname
    let tsVal : DVal :=
      match timestamp with
      | some t => DVal.str t
      | none => DVal.null
    if !(isSuccessStatus features) then
      [("reliability_score", DVal.num 0),
       ("reliability_category", DVal.str "baja"),
       ("timestamp", tsVal)] ++ features
    else
      let score := calculateReliabilityScore profiles (featureVal features)
      [("reliability_score", DVal.rnum score),
       ("reliability_category", DVal.str (classifyReliabilityCategory score)),
       ("timestamp", tsVal),
       ("total_processing_time", DVal.num tt)] ++ features

/-! ## Concrete instances used to exercise the theorems -/

/-- A 12-row single-column image with a clean 200/150/100 layering. -/
def exImgGood : Image :=
  List.replicate 2 [(200 : ℚ)] ++ List.replicate 6 [(150 : ℚ)] ++
    List.replicate 4 [(100 : ℚ)]

/-- A 12-row all-zero image (every region mean is 0). -/
def exImgZero : Image := List.replicate 12 [(0 : ℚ)]

/-- A row of the analysis dataset holding one sigma and one thermal value. -/
def exARow (s : ℚ) (t : ℚ) : ARow :=
  { status := "success", batch := "estable",
    val := fun c =>
      if c = "sigma_Caudal" then some s
      else if c = "thermal_gradient_max" then some t
      else none }

/-- Ten valid rows with both the sigma and the thermal column present. -/
def exADF : ADF :=
  { cols := ["sigma_Caudal", "thermal_gradient_max"],
    rows := (List.range 10).map (fun i => exARow (i : ℚ) ((i : ℚ) + 1)) }

/-- A statistical oracle reporting coefficient `1/2` and p-value `0.07`. -/
def exOracle : List ℚ → List ℚ → ℚ × ℚ := fun _ _ => (1 / 2, 7 / 100)

/-- Five valid rows with both columns present: enough paired observations
for any pair, but below the 10-row gate of the correlation pass. -/
def exADF5 : ADF :=
  { cols := ["sigma_Caudal", "thermal_gradient_max"],
    rows := (List.range 5).map (fun i => exARow (i : ℚ) ((i : ℚ) + 1)) }

/-- A dataset row for the classifier/sigma examples. -/
def exQRow (a b : ℚ) : String → Option ℚ := fun c =>
  if c = "sigma_Caudal" then some a
  else if c = "sigma_Nivel TK %" then some b
  else none

/-- Four rows whose `sigma_Caudal` column is constant (zero variance). -/
def exDF6 : DFrame :=
  { cols := ["sigma_Caudal", "sigma_Nivel TK %"],
    rows := [exQRow 2 1, exQRow 2 5, exQRow 2 3, exQRow 2 7] }

/-- A row for the `compute_sigma` example. -/
def exSRow (d v : ℚ) : String → Option ℚ := fun c =>
  if c = "Día" then some d
  else if c = "Caudal" then some v
  else none

/-- Three rows, out of order on `Día`. -/
def exDF9 : DFrame :=
  { cols := ["Día", "Caudal"],
    rows := [exSRow 3 10, exSRow 1 20, exSRow 2 30] }

/-- A row carrying a pre-existing `sigma_Caudal` value. -/
def exSRowB (d v sg : ℚ) : String → Option ℚ := fun c =>
  if c = "Día" then some d
  else if c = "Caudal" then some v
  else if c = "sigma_Caudal" then some sg
  else none

/-- Three rows whose dataset already holds a `sigma_Caudal` column
(constant 7, so reordering alone cannot change its value sequence). -/
def exDF9b : DFrame :=
  { cols := ["Día", "Caudal", "sigma_Caudal"],
    rows := [exSRowB 3 10 7, exSRowB 1 20 7, exSRowB 2 30 7] }

/-! ## Theorems -/

theorem checkRange_crudo (x : ℚ) : checkRange x "crudo" 5 = specLayerScore x 180 255 := by
  simp only [checkRange, specLayerScore, tempRange]
  split_ifs <;> norm_num

theorem checkRange_emulsion (x : ℚ) : checkRange x "emulsion" 5 = specLayerScore x 130 180 := by
  simp only [checkRange, specLayerScore, tempRange]
  split_ifs <;> norm_num

theorem checkRange_agua (x : ℚ) : checkRange x "agua" 5 = specLayerScore x 70 130 := by
  simp only [checkRange, specLayerScore, tempRange]
  split_ifs <;> norm_num

/-- C3: for all rational inputs, `_score_temperature_sequence` returns `-100`
exactly when `top ≤ middle` or `middle ≤ bottom`, and otherwise the sum of the
three per-layer range-membership scores (5 in range, +2.5 above, −2.5 below)
plus a bonus of 3 for each gap larger than 10. -/
theorem scoreTemperatureSequence_eq_spec (t m b : ℚ) :
    scoreTemperatureSequence t m b = specScoreSequence t m b := by
  unfold scoreTemperatureSequence specScoreSequence
  by_cases h : t > m ∧ m > b
  · have h' : ¬(t ≤ m ∨ m ≤ b) := by
      push_neg
      exact ⟨h.1, h.2⟩
    rw [if_neg (not_not_intro h), if_neg h']
    rw [checkRange_crudo, checkRange_emulsion, checkRange_agua]
  · have h' : t ≤ m ∨ m ≤ b := by
      rcases not_and_or.mp h with h1 | h1
      · exact Or.inl (not_lt.mp h1)
      · exact Or.inr (not_lt.mp h1)
    rw [if_pos h, if_pos h']

theorem foldr_max_pull (a b : ℚ) :
    ∀ xs : List ℚ, xs.foldr max (max a b) = max a (xs.foldr max b)
  | [] => rfl
  | x :: xs => by
    simp only [List.foldr_cons, foldr_max_pull a b xs]
    exact max_left_comm x a _

theorem le_foldr_max (b : ℚ) : ∀ xs : List ℚ, b ≤ xs.foldr max b
  | [] => le_refl b
  | x :: xs => le_trans (le_foldr_max b xs) (le_max_right x _)

/-- The running best score of the selection loop is the maximum of the scores
of the scanned (`t < b`) pairs and the initial best. -/
theorem scanPairs_score (img : Image) :
    ∀ (l : List (ℕ × ℕ)) (acc : (ℕ × ℕ) × ℚ),
      (scanPairs img acc l).2 =
        ((l.filter (fun p => decide (p.1 < p.2))).map
          (fun p => pairScore img p.1 p.2)).foldr max acc.2
  | [], _ => rfl
  | (t, b) :: rest, acc => by
    by_cases hle : b ≤ t
    · have hnb : ¬(t < b) := not_lt.mpr hle
      simp [scanPairs, hle, hnb, scanPairs_score img rest acc]
    · have hlt : t < b := Nat.lt_of_not_le hle
      have hf : (((t, b) :: rest).filter (fun p => decide (p.1 < p.2))) =
          (t, b) :: rest.filter (fun p => decide (p.1 < p.2)) := by
        simp [hlt]
      by_cases hs : pairScore img t b > acc.2
      · simp only [scanPairs, if_neg hle, if_pos hs]
        rw [scanPairs_score img rest ((t, b), pairScore img t b), hf]
        simp only [List.map_cons, List.foldr_cons]
        have h1 : max (pairScore img t b) acc.2 = pairScore img t b :=
          max_eq_left (le_of_lt hs)
        conv_lhs => rw [← h1]
        exact foldr_max_pull _ _ _
      · simp only [scanPairs, if_neg hle, if_neg hs]
        rw [scanPairs_score img rest acc, hf]
        simp only [List.map_cons, List.foldr_cons]
        have h2 : pairScore img t b ≤
            ((rest.filter (fun p => decide (p.1 < p.2))).map
              (fun p => pairScore img p.1 p.2)).foldr max acc.2 :=
          le_trans (not_lt.mp hs) (le_foldr_max _ _)
        exact (max_eq_right h2).symm

/-- Case analysis of the selection loop: either no scanned pair beats the
incoming best (and the accumulator is returned unchanged), or the returned
pair is the first scanned pair attaining the strictly improved best score. -/
theorem scanPairs_spec (img : Image) :
    ∀ (l : List (ℕ × ℕ)) (acc : (ℕ × ℕ) × ℚ),
      (scanPairs img acc l = acc ∧
        ∀ p ∈ l.filter (fun p => decide (p.1 < p.2)),
          pairScore img p.1 p.2 ≤ acc.2) ∨
      (acc.2 < (scanPairs img acc l).2 ∧
        (l.filter (fun p => decide (p.1 < p.2))).find?
            (fun p => decide (pairScore img p.1 p.2 = (scanPairs img acc l).2)) =
          some (scanPairs img acc l).1)
  | [], acc => Or.inl ⟨rfl, by simp⟩
  | (t, b) :: rest, acc => by
    by_cases hle : b ≤ t
    · have hnb : ¬(t < b) := not_lt.mpr hle
      have hd : scanPairs img acc ((t, b) :: rest) = scanPairs img acc rest := by
        simp [scanPairs, hle]
      have hf : (((t, b) :: rest).filter (fun p => decide (p.1 < p.2))) =
          rest.filter (fun p => decide (p.1 < p.2)) := by simp [hnb]
      rw [hd, hf]
      exact scanPairs_spec img rest acc
    · have hlt : t < b := Nat.lt_of_not_le hle
      have hf : (((t, b) :: rest).filter (fun p => decide (p.1 < p.2))) =
          (t, b) :: rest.filter (fun p => decide (p.1 < p.2)) := by simp [hlt]
      by_cases hs : pairScore img t b > acc.2
      · have hd : scanPairs img acc ((t, b) :: rest) =
            scanPairs img ((t, b), pairScore img t b) rest := by
          simp [scanPairs, hle, hs]
        rcases scanPairs_spec img rest ((t, b), pairScore img t b) with
          ⟨heq, _⟩ | ⟨hgt, hfind⟩
        · right
          rw [hd, heq, hf]
          refine ⟨hs, ?_⟩
          simp [List.find?]
        · right
          rw [hd, hf]
          refine ⟨lt_trans hs hgt, ?_⟩
          have hne : ¬(pairScore img t b =
              (scanPairs img ((t, b), pairScore img t b) rest).2) :=
            ne_of_lt hgt
          simp only [List.find?, decide_eq_false hne]
          exact hfind
      · have hsle : pairScore img t b ≤ acc.2 := not_lt.mp hs
        have hd : scanPairs img acc ((t, b) :: rest) = scanPairs img acc rest := by
          simp [scanPairs, hle, hs]
        rcases scanPairs_spec img rest acc with ⟨heq, hbnd⟩ | ⟨hgt, hfind⟩
        · left
          rw [hd, heq, hf]
          refine ⟨rfl, ?_⟩
          intro p hp
          rcases List.mem_cons.mp hp with h | h
          · rw [h]
            exact hsle
          · exact hbnd p h
        · right
          rw [hd, hf]
          refine ⟨hgt, ?_⟩
          have hne : ¬(pairScore img t b = (scanPairs img acc rest).2) :=
            ne_of_lt (lt_of_le_of_lt hsle hgt)
          simp only [List.find?, decide_eq_false hne]
          exact hfind

/-- C1 counterexample: with the 200/150/100 image and two surviving peaks at
rows 8 and 2 where the peak at row 8 is the more prominent, the only ordered
pair with `t < b` among the top candidates is `(2, 8)` (which the claim says
must be returned), yet the code returns the fallback `(4, 8)`: the loop visits
the pair only in prominence order as `(8, 2)` and discards it at `t >= b`. -/
theorem selectValidInterfaces_not_claimed_pair :
    specSelectInterfaces exImgGood [8, 2] [5, 1] = some (2, 8) ∧
    (selectValidInterfaces exImgGood [8, 2] [5, 1]).1 = (4, 8) ∧
    ((4, 8) : ℕ × ℕ) ≠ (2, 8) := by
  refine ⟨by decide, ?_, by decide⟩
  norm_num [selectValidInterfaces, candidatePairs, topPeaks, candOrder, pairsFrom,
    scanPairs, exImgGood, List.replicate, List.insertionSort, List.orderedInsert,
    List.range, List.range.loop]

/-- C1 (amended): the detector scores exactly those ordered pairs `(t, b)`
with `t < b` in which `t` precedes `b` in the prominence-descending candidate
order; the returned score is the maximum of those scores and the initial `-1`,
and when that maximum exceeds `-1` the returned pair is the first scored pair
attaining it (ties to enumeration order); otherwise the fallback
`(H//3, 2*H//3)` with score `-1` is returned. -/
theorem selectValidInterfaces_spec (img : Image) (peaks : List ℕ) (proms : List ℚ) :
    (selectValidInterfaces img peaks proms).2 =
      ((validCandidatePairs peaks proms).map
        (fun p => pairScore img p.1 p.2)).foldr max (-1) ∧
    (-1 < (selectValidInterfaces img peaks proms).2 →
      (validCandidatePairs peaks proms).find?
          (fun p => decide (pairScore img p.1 p.2 =
            (selectValidInterfaces img peaks proms).2)) =
        some (selectValidInterfaces img peaks proms).1) ∧
    ((selectValidInterfaces img peaks proms).2 ≤ -1 →
      selectValidInterfaces img peaks proms =
        ((img.length / 3, 2 * img.length / 3), -1)) := by
  have hsc := scanPairs_score img (candidatePairs peaks proms)
    ((img.length / 3, 2 * img.length / 3), -1)
  have hsp := scanPairs_spec img (candidatePairs peaks proms)
    ((img.length / 3, 2 * img.length / 3), -1)
  refine ⟨hsc, ?_, ?_⟩
  · intro hgt
    rcases hsp with ⟨heq, _⟩ | ⟨_, hfind⟩
    · rw [show selectValidInterfaces img peaks proms =
        scanPairs img ((img.length / 3, 2 * img.length / 3), -1)
          (candidatePairs peaks proms) from rfl, heq] at hgt
      exact absurd hgt (lt_irrefl _)
    · exact hfind
  · intro hle
    rcases hsp with ⟨heq, _⟩ | ⟨hgt, _⟩
    · exact heq
    · exact absurd (lt_of_lt_of_le hgt hle) (lt_irrefl _)

/-- Components of a visited pair come from the candidate-peak list. -/
theorem mem_pairsFrom : ∀ {l : List ℕ} {p : ℕ × ℕ},
    p ∈ pairsFrom l → p.1 ∈ l ∧ p.2 ∈ l
  | [], p, h => by simp [pairsFrom] at h
  | t :: rest, p, h => by
    simp only [pairsFrom, List.mem_append, List.mem_map] at h
    rcases h with ⟨b, hb, rfl⟩ | h
    · exact ⟨List.mem_cons_self _ _, List.mem_cons_of_mem _ hb⟩
    · have hm := mem_pairsFrom h
      exact ⟨List.mem_cons_of_mem _ hm.1, List.mem_cons_of_mem _ hm.2⟩

/-- The top candidates are drawn from the surviving peaks. -/
theorem mem_topPeaks {x : ℕ} {peaks : List ℕ} {proms : List ℚ}
    (hx : x ∈ topPeaks peaks proms) : x ∈ peaks := by
  obtain ⟨i, hi, rfl⟩ := List.mem_map.mp hx
  have hi' : i ∈ List.insertionSort (fun i j => proms.getD j 0 ≤ proms.getD i 0)
      (List.range peaks.length) := List.mem_of_mem_take hi
  have hir : i ∈ List.range peaks.length :=
    (List.perm_insertionSort _ _).mem_iff.mp hi'
  have hlen : i < peaks.length := List.mem_range.mp hir
  rw [List.getD_eq_getElem peaks 0 hlen]
  exact List.getElem_mem hlen

/-- C4 counterexample: with two surviving peaks (rows 2 and 8) over the
all-zero image, every scored pair is hard-rejected (score `-100 < -1`), so
the code returns the fallback `(4, 8)` — which is not one of the enumerated
candidate pairs.  The fallback is therefore reachable with ≥ 2 peaks. -/
theorem fallback_reachable_with_two_peaks :
    2 ≤ ([2, 8] : List ℕ).length ∧
    selectValidInterfaces exImgZero [2, 8] [5, 1] = ((4, 8), -1) ∧
    ((4, 8) : ℕ × ℕ) ∉ candidatePairs [2, 8] [5, 1] := by
  refine ⟨by decide, ?_, by decide⟩
  norm_num [selectValidInterfaces, candidatePairs, topPeaks, candOrder, pairsFrom,
    scanPairs, pairScore, regionTemps, meanOrZero, scoreTemperatureSequence, checkRange,
    tempRange, exImgZero, List.replicate, List.insertionSort, List.orderedInsert,
    List.range, List.range.loop]

/-- C4 (amended): the returned pair is always either one of the enumerated
candidate-peak pairs (with `t < b`) or the defensive fallback
`(H//3, 2*H//3)`; the fallback is reachable even when ≥ 2 peaks survive (see
the counterexample theorem for a concrete such input). -/
theorem selectValidInterfaces_mem_or_fallback (img : Image) (peaks : List ℕ)
    (proms : List ℚ) :
    (selectValidInterfaces img peaks proms).1 =
        (img.length / 3, 2 * img.length / 3) ∨
    ((selectValidInterfaces img peaks proms).1 ∈ candidatePairs peaks proms ∧
      (selectValidInterfaces img peaks proms).1.1 <
        (selectValidInterfaces img peaks proms).1.2) := by
  rcases scanPairs_spec img (candidatePairs peaks proms)
      ((img.length / 3, 2 * img.length / 3), -1) with ⟨heq, _⟩ | ⟨_, hfind⟩
  · left
    rw [show selectValidInterfaces img peaks proms =
      scanPairs img ((img.length / 3, 2 * img.length / 3), -1)
        (candidatePairs peaks proms) from rfl, heq]
  · right
    have hmem := List.mem_of_find?_eq_some hfind
    have hmem' := List.mem_filter.mp hmem
    exact ⟨hmem'.1, of_decide_eq_true hmem'.2⟩

/-- Concrete evaluation: with the clean 200/150/100 image and peaks at rows 2
and 8, the detector selects `(2, 8)` with the full score 21. -/
theorem exGood_select_eval :
    selectValidInterfaces exImgGood [2, 8] [5, 1] = ((2, 8), 21) := by
  norm_num [selectValidInterfaces, candidatePairs, topPeaks, candOrder, pairsFrom,
    scanPairs, pairScore, regionTemps, meanOrZero, scoreTemperatureSequence, checkRange,
    tempRange, exImgGood, List.replicate, List.insertionSort, List.orderedInsert,
    List.range, List.range.loop]

/-- Witness for the amended C1 theorem at a concrete input. -/
theorem selectValidInterfaces_spec_witness :
    (-1 < (selectValidInterfaces exImgGood [2, 8] [5, 1]).2) ∧
    (validCandidatePairs [2, 8] [5, 1]).find?
        (fun p => decide (pairScore exImgGood p.1 p.2 =
          (selectValidInterfaces exImgGood [2, 8] [5, 1]).2)) =
      some (selectValidInterfaces exImgGood [2, 8] [5, 1]).1 := by
  have hgt : -1 < (selectValidInterfaces exImgGood [2, 8] [5, 1]).2 := by
    rw [exGood_select_eval]
    norm_num
  exact ⟨hgt, (selectValidInterfaces_spec exImgGood [2, 8] [5, 1]).2.1 hgt⟩

/-- C8: whatever interface pair the detector returns (candidate pair or
fallback), the three layer ratios are non-negative and sum to 1 within
`1e-9` (exactly, over the rationals). -/
theorem calculateLayers_ratios (img : Image) (peaks : List ℕ) (proms : List ℚ)
    (h2 : 2 ≤ peaks.length) (hH : 0 < img.length)
    (hpk : ∀ p ∈ peaks, p < img.length) (t b : ℕ)
    (htb : (selectValidInterfaces img peaks proms).1 = (t, b)) :
    0 ≤ (calculateLayers img t b).crudo_ratio ∧
    0 ≤ (calculateLayers img t b).emulsion_ratio ∧
    0 ≤ (calculateLayers img t b).agua_ratio ∧
    |(calculateLayers img t b).crudo_ratio +
      (calculateLayers img t b).emulsion_ratio +
      (calculateLayers img t b).agua_ratio - 1| ≤ 1 / 1000000000 := by
  have hcases := selectValidInterfaces_mem_or_fallback img peaks proms
  rw [htb] at hcases
  have hbounds : t ≤ b ∧ b ≤ img.length := by
    rcases hcases with hfb | ⟨hmem, hlt⟩
    · have ht' : t = img.length / 3 := congrArg Prod.fst hfb
      have hb' : b = 2 * img.length / 3 := congrArg Prod.snd hfb
      subst ht'
      subst hb'
      constructor
      · exact Nat.div_le_div_right (by omega)
      · exact Nat.div_le_of_le_mul (by omega)
    · have hp := mem_pairsFrom hmem
      have hbp : b ∈ peaks := mem_topPeaks hp.2
      exact ⟨le_of_lt hlt, le_of_lt (hpk b hbp)⟩
  have hQ : (0 : ℚ) < (img.length : ℚ) := by exact_mod_cast hH
  have htQ : (t : ℚ) ≤ (b : ℚ) := by exact_mod_cast hbounds.1
  have hbQ : (b : ℚ) ≤ (img.length : ℚ) := by exact_mod_cast hbounds.2
  simp only [calculateLayers]
  refine ⟨div_nonneg (by positivity) hQ.le,
    div_nonneg (by linarith) hQ.le,
    div_nonneg (by linarith) hQ.le, ?_⟩
  have hsum : (t : ℚ) / (img.length : ℚ) +
      ((b : ℚ) - (t : ℚ)) / (img.length : ℚ) +
      ((img.length : ℚ) - (b : ℚ)) / (img.length : ℚ) - 1 = 0 := by
    field_simp
  rw [hsum, abs_zero]
  norm_num

/-- Witness for the C8 theorem at the concrete good image. -/
theorem calculateLayers_ratios_witness :
    (2 ≤ ([2, 8] : List ℕ).length) ∧ (0 < exImgGood.length) ∧
    (0 ≤ (calculateLayers exImgGood 2 8).crudo_ratio ∧
     0 ≤ (calculateLayers exImgGood 2 8).emulsion_ratio ∧
     0 ≤ (calculateLayers exImgGood 2 8).agua_ratio ∧
     |(calculateLayers exImgGood 2 8).crudo_ratio +
       (calculateLayers exImgGood 2 8).emulsion_ratio +
       (calculateLayers exImgGood 2 8).agua_ratio - 1| ≤ 1 / 1000000000) := by
  have hlen : exImgGood.length = 12 := by decide
  refine ⟨by decide, by decide, ?_⟩
  exact calculateLayers_ratios exImgGood [2, 8] [5, 1] (by decide)
    (by decide) (by decide) 2 8
    (congrArg Prod.fst exGood_select_eval)

/-- Concrete evaluation of the correlation pass on the ten-row dataset with
the p = 0.07 oracle. -/
theorem exADF_correlate_eval :
    correlateReliability exADF exOracle =
      [("thermal_gradient_max",
        [("sigma_Caudal",
          { correlation := 1/2, p_value := 7/100, significant := true,
            n_samples := 10 })])] := by
  simp [correlateReliability, validRows, exADF, exARow, thermalVars, sigmaVars,
    corrEntry, pairedObs, exOracle, List.range, List.range.loop,
    List.filterMap, List.filter, List.map]
  norm_num
theorem lookup_map_self {β : Type} (g : String → β) :
    ∀ (ks : List String) (k : String), k ∈ ks →
      (ks.map (fun x => (x, g x))).lookup k = some (g k)
  | [], k, h => absurd h (List.not_mem_nil k)
  | x :: ks, k, h => by
    by_cases hk : k = x
    · subst hk
      simp [List.lookup]
    · have hk' : k ∈ ks := by
        rcases List.mem_cons.mp h with h' | h'
        · exact absurd h' hk
        · exact h'
      have hbeq : (k == x) = false := beq_eq_false_iff_ne.mpr hk
      simp [List.lookup, hbeq]
      exact lookup_map_self g ks k hk'

theorem lookup_filterMap_none {β : Type} (g : String → Option β) :
    ∀ (ks : List String) (k : String), k ∉ ks →
      (ks.filterMap (fun x => (g x).map (fun v => (x, v)))).lookup k = none
  | [], k, _ => rfl
  | x :: ks, k, h => by
    have hk : k ≠ x := fun he => h (he ▸ List.mem_cons_self x ks)
    have hk' : k ∉ ks := fun hm => h (List.mem_cons_of_mem x hm)
    have hbeq : (k == x) = false := beq_eq_false_iff_ne.mpr hk
    cases hgx : g x with
    | none =>
      simp only [List.filterMap_cons, hgx, Option.map_none']
      exact lookup_filterMap_none g ks k hk'
    | some v =>
      simp only [List.filterMap_cons, hgx, Option.map_some']
      simp only [List.lookup, hbeq]
      exact lookup_filterMap_none g ks k hk'

theorem lookup_filterMap_keyed {β : Type} (g : String → Option β) :
    ∀ (ks : List String), ks.Nodup → ∀ k, k ∈ ks →
      (ks.filterMap (fun x => (g x).map (fun v => (x, v)))).lookup k = g k
  | [], _, k, h => absurd h (List.not_mem_nil k)
  | x :: ks, hnd, k, h => by
    have hnd' := List.nodup_cons.mp hnd
    by_cases hk : k = x
    · subst hk
      cases hgx : g k with
      | none =>
        simp only [List.filterMap_cons, hgx, Option.map_none']
        exact lookup_filterMap_none g ks k hnd'.1
      | some v =>
        simp only [List.filterMap_cons, hgx, Option.map_some']
        simp [List.lookup]
    · have hk' : k ∈ ks := by
        rcases List.mem_cons.mp h with h' | h'
        · exact absurd h' hk
        · exact h'
      have hbeq : (k == x) = false := beq_eq_false_iff_ne.mpr hk
      cases hgx : g x with
      | none =>
        simp only [List.filterMap_cons, hgx, Option.map_none']
        exact lookup_filterMap_keyed g ks hnd'.2 k hk'
      | some v =>
        simp only [List.filterMap_cons, hgx, Option.map_some']
        simp only [List.lookup, hbeq]
        exact lookup_filterMap_keyed g ks hnd'.2 k hk'

/-- C5 (amended): with fewer than 10 valid rows the whole correlation pass is
skipped and returns an empty result (so every entry is absent, also for pairs
with enough observations); once it runs, a pair's entry is present in the
result exactly when it has at least 3 valid paired observations in the
success-and-classified subset, and omitted otherwise. -/
theorem correlate_entry_iff (df : ADF) (f : List ℚ → List ℚ → ℚ × ℚ)
    (tv sv : String)
    (htv : tv ∈ thermalVars) (htc : df.cols.contains tv = true)
    (hsv : sv ∈ sigmaVars df) (hnd : df.cols.Nodup) :
    ((validRows df).length < 10 → correlateReliability df f = []) ∧
    (10 ≤ (validRows df).length →
      ∃ es, (correlateReliability df f).lookup tv = some es ∧
        ((es.lookup sv).isSome ↔
          3 ≤ (pairedObs (validRows df) tv sv).length)) := by
  constructor
  · intro hlt
    unfold correlateReliability
    rw [if_pos hlt]
  intro h10
  have hno : ¬((validRows df).length < 10) := by omega
  have hmem : tv ∈ thermalVars.filter (fun tv => df.cols.contains tv) :=
    List.mem_filter.mpr ⟨htv, htc⟩
  refine ⟨(sigmaVars df).filterMap
      (fun sv => (corrEntry (validRows df) tv sv f).map (fun e => (sv, e))),
    ?_, ?_⟩
  · unfold correlateReliability
    rw [if_neg hno]
    exact lookup_map_self _ _ tv hmem
  · have hndsv : (sigmaVars df).Nodup := List.Nodup.filter _ hnd
    rw [lookup_filterMap_keyed _ (sigmaVars df) hndsv sv hsv]
    unfold corrEntry
    by_cases h3 : (pairedObs (validRows df) tv sv).length < 3
    · simp only [if_pos h3, Option.isSome_none]
      constructor
      · intro hfalse
        exact absurd hfalse (by decide)
      · intro hge
        omega
    · simp only [if_neg h3, Option.isSome_some]
      constructor
      · intro _
        omega
      · intro _
        trivial
theorem mem_of_lookup_eq_some' {β : Type} :
    ∀ {l : List (String × β)} {k : String} {v : β},
      l.lookup k = some v → (k, v) ∈ l
  | [], k, v, h => by simp [List.lookup] at h
  | (a, b) :: rest, k, v, h => by
    by_cases hk : k = a
    · subst hk
      simp only [List.lookup, beq_self_eq_true] at h
      cases h
      exact List.mem_cons_self _ _
    · have hbeq : (k == a) = false := beq_eq_false_iff_ne.mpr hk
      simp only [List.lookup, hbeq] at h
      exact List.mem_cons_of_mem _ (mem_of_lookup_eq_some' h)

/-- C2 (amended): every reported correlation entry carries a significance
flag that is true exactly when its p-value is below 0.1 (not 0.05: the 0.05
threshold belongs to a different module's correlation pass). -/
theorem correlate_significant_iff (df : ADF) (f : List ℚ → List ℚ → ℚ × ℚ)
    (tv sv : String) (es : List (String × CorrEntry)) (e : CorrEntry)
    (hes : (correlateReliability df f).lookup tv = some es)
    (he : es.lookup sv = some e) :
    e.significant = true ↔ e.p_value < 1 / 10 := by
  unfold correlateReliability at hes
  by_cases h10 : (validRows df).length < 10
  · rw [if_pos h10] at hes
    simp [List.lookup] at hes
  · rw [if_neg h10] at hes
    have hmem := mem_of_lookup_eq_some' hes
    obtain ⟨tv0, _, heq⟩ := List.mem_map.mp hmem
    injection heq with htv0 hinner
    rw [← hinner] at he
    have hmem2 := mem_of_lookup_eq_some' he
    obtain ⟨sv0, _, hmap⟩ := List.mem_filterMap.mp hmem2
    obtain ⟨e0, he0, heq2⟩ := Option.map_eq_some'.mp hmap
    injection heq2 with hsv0 he'
    subst he'
    unfold corrEntry at he0
    by_cases h3 : (pairedObs (validRows df) tv0 sv0).length < 3
    · rw [if_pos h3] at he0
      exact absurd he0 (by simp)
    · rw [if_neg h3] at he0
      have hfields := Option.some.inj he0
      rw [← hfields]
      simp only [decide_eq_true_eq]
/-- C2 counterexample: a reported entry with p-value 0.07 carries
`significant = true`, although 0.07 is not below 0.05. -/
theorem correlate_flag_at_p007 :
    ((correlateReliability exADF exOracle).lookup "thermal_gradient_max").bind
        (fun es => es.lookup "sigma_Caudal") =
      some { correlation := 1/2, p_value := 7/100, significant := true,
             n_samples := 10 } ∧
    ¬((7 : ℚ) / 100 < 5 / 100) := by
  constructor
  · rw [exADF_correlate_eval]
    simp [List.lookup]
  · norm_num

/-- Witness for the amended C2 theorem at a concrete reported entry. -/
theorem correlate_significant_iff_witness :
    ({ correlation := 1/2, p_value := 7/100, significant := true,
       n_samples := 10 } : CorrEntry).significant = true ↔
    ({ correlation := 1/2, p_value := 7/100, significant := true,
       n_samples := 10 } : CorrEntry).p_value < 1 / 10 :=
  correlate_significant_iff exADF exOracle "thermal_gradient_max" "sigma_Caudal"
    [("sigma_Caudal",
      { correlation := 1/2, p_value := 7/100, significant := true, n_samples := 10 })]
    { correlation := 1/2, p_value := 7/100, significant := true, n_samples := 10 }
    (by rw [exADF_correlate_eval]; simp [List.lookup])
    (by simp [List.lookup])

/-- Witness for the C5 theorem on the concrete ten-row dataset. -/
theorem correlate_entry_iff_witness :
    (10 ≤ (validRows exADF).length) ∧
    (∃ es, (correlateReliability exADF exOracle).lookup "thermal_gradient_max" =
        some es ∧
      ((es.lookup "sigma_Caudal").isSome ↔
        3 ≤ (pairedObs (validRows exADF) "thermal_gradient_max" "sigma_Caudal").length)) :=
  ⟨by decide,
    (correlate_entry_iff exADF exOracle "thermal_gradient_max" "sigma_Caudal"
      (by decide) (by decide) (by decide) (by decide)).2 (by decide)⟩

/-- C5 counterexample: with 5 valid rows the pair
(`thermal_gradient_max`, `sigma_Caudal`) has 5 ≥ 3 valid paired observations,
yet the correlation pass returns the empty result and no entry is present —
the claimed "present iff ≥ 3 paired observations" fails below the 10-row
gate of `correlate_reliability`. -/
theorem correlate_missing_below_ten :
    3 ≤ (pairedObs (validRows exADF5) "thermal_gradient_max"
      "sigma_Caudal").length ∧
    "thermal_gradient_max" ∈ exADF5.cols ∧
    "sigma_Caudal" ∈ sigmaVars exADF5 ∧
    correlateReliability exADF5 exOracle = [] ∧
    (correlateReliability exADF5 exOracle).lookup "thermal_gradient_max" =
      none := by
  refine ⟨by decide, by decide, by decide, by decide, by decide⟩


/-- C6: a zero-variance sigma column contributes exactly 0 to every row's
normalized sigma (the `std > 0` guard takes the `0` branch, so no division is
performed), and the classifier still assigns every row one of the two batch
labels. -/
theorem classifyBatches_zero_variance (thOpt : Option ℚ) (df : DFrame)
    (sigmaColumns : List String) (c : String)
    (hc : c ∈ sigmaColumns.filter (fun c => df.cols.contains c))
    (hvar : qvar (colVals df c) = 0)
    (hne : sigmaColumns.filter (fun c => df.cols.contains c) ≠ []) :
    (∀ r ∈ df.rows, normEntry (colVals df c) ((r c).getD 0) = 0) ∧
    (∀ lab ∈ classifyBatches thOpt df sigmaColumns,
      lab = "estable" ∨ lab = "turbulento") := by
  constructor
  · intro r _
    unfold normEntry
    rw [hvar]
    simp
  · intro lab hlab
    unfold classifyBatches at hlab
    rw [if_neg hne] at hlab
    simp only [List.mem_map] at hlab
    obtain ⟨x, _, hx⟩ := hlab
    split at hx
    · exact Or.inl hx.symm
    · exact Or.inr hx.symm

/-- Witness for the C6 theorem on the four-row dataset whose `sigma_Caudal`
column is constant. -/
theorem classifyBatches_zero_variance_witness :
    qvar (colVals exDF6 "sigma_Caudal") = 0 ∧
    ((∀ r ∈ exDF6.rows,
        normEntry (colVals exDF6 "sigma_Caudal") ((r "sigma_Caudal").getD 0) = 0) ∧
      (∀ lab ∈ classifyBatches none exDF6 ["sigma_Caudal", "sigma_Nivel TK %"],
        lab = "estable" ∨ lab = "turbulento")) := by
  have hvar : qvar (colVals exDF6 "sigma_Caudal") = 0 := by
    norm_num [qvar, qmean, colVals, exDF6, exQRow]
  exact ⟨hvar,
    classifyBatches_zero_variance none exDF6 ["sigma_Caudal", "sigma_Nivel TK %"]
      "sigma_Caudal" (by decide) hvar (by decide)⟩

/-- C7: the realtime scorer returns exactly 50 when the reference profile is
empty, and likewise when every weighted feature is missing or null in the
record or absent from the reference (no sub-score computable). -/
theorem calculateReliabilityScore_neutral (profiles : List (String × RefStat))
    (features : String → Option ℚ) :
    (profiles = [] → calculateReliabilityScore profiles features = 50) ∧
    ((∀ p ∈ keyVars, features p.1 = none ∨ profiles.lookup p.1 = none) →
      calculateReliabilityScore profiles features = 50) := by
  constructor
  · intro h
    unfold calculateReliabilityScore
    rw [if_pos h]
  · intro hall
    unfold calculateReliabilityScore
    by_cases hp : profiles = []
    · rw [if_pos hp]
    · rw [if_neg hp]
      have hsw : keyVars.filterMap (fun p =>
          match features p.1, profiles.lookup p.1 with
          | some v, some ref => some (subScore ref v, p.2)
          | _, _ => none) = [] := by
        rw [List.filterMap_eq_nil_iff]
        intro p hp'
        rcases hall p hp' with h | h <;> simp [h]
      rw [hsw]
      simp

/-- Witness for the C7 theorem: empty profile, and a nonempty profile with an
all-null record. -/
theorem calculateReliabilityScore_neutral_witness :
    calculateReliabilityScore [] (fun _ => none) = 50 ∧
    calculateReliabilityScore [("thermal_gradient_max",
      { mean := 1, std := 0 })] (fun _ => none) = 50 :=
  ⟨(calculateReliabilityScore_neutral [] (fun _ => none)).1 rfl,
   (calculateReliabilityScore_neutral
      [("thermal_gradient_max", { mean := 1, std := 0 })] (fun _ => none)).2
    (fun p _ => Or.inl rfl)⟩


/-- C10: for a missing file, `predict_new_image` returns a dictionary with
exactly the keys `error` (value `image_not_found`), `reliability_score` (0.0)
and `reliability_category` (`baja`) — no `status` key and no thermal feature
keys — while the other failure paths (load error, too few peaks) return the
full zeroed feature record extended with score 0.0 and category `baja`. -/
theorem predictNewImage_failure_shape (profiles : List (String × RefStat))
    (outcome : ProcOutcome) (pt tt : ℚ) (path fname : String)
    (ts : Option String) :
    (predictNewImage profiles false outcome pt tt path fname ts =
      [("error", DVal.str "image_not_found"),
       ("reliability_score", DVal.num 0),
       ("reliability_category", DVal.str "baja")]) ∧
    ((predictNewImage profiles false outcome pt tt path fname ts).lookup
      "status" = none) ∧
    ((predictNewImage profiles false outcome pt tt path fname ts).lookup
      "thermal_crudo_ratio" = none) ∧
    (∀ kv ∈ defaultOutput "processing_error",
      (predictNewImage profiles true ProcOutcome.loadFailure pt tt path fname
        ts).lookup kv.1 = some kv.2) ∧
    ((predictNewImage profiles true ProcOutcome.loadFailure pt tt path fname
      ts).lookup "reliability_score" = some (DVal.num 0)) ∧
    ((predictNewImage profiles true ProcOutcome.loadFailure pt tt path fname
      ts).lookup "reliability_category" = some (DVal.str "baja")) ∧
    (∀ kv ∈ defaultOutput "no_interfaces_detected",
      (predictNewImage profiles true ProcOutcome.tooFewPeaks pt tt path fname
        ts).lookup kv.1 = some kv.2) ∧
    ((predictNewImage profiles true ProcOutcome.tooFewPeaks pt tt path fname
      ts).lookup "reliability_score" = some (DVal.num 0)) ∧
    ((predictNewImage profiles true ProcOutcome.tooFewPeaks pt tt path fname
      ts).lookup "reliability_category" = some (DVal.str "baja")) := by
  refine ⟨rfl, rfl, rfl, ?_, rfl, rfl, ?_, rfl, rfl⟩
  · intro kv hkv
    simp only [defaultOutput, List.mem_cons, List.not_mem_nil, or_false] at hkv
    rcases hkv with rfl|rfl|rfl|rfl|rfl|rfl|rfl|rfl|rfl|rfl|rfl|rfl|rfl|rfl|rfl <;> rfl
  · intro kv hkv
    simp only [defaultOutput, List.mem_cons, List.not_mem_nil, or_false] at hkv
    rcases hkv with rfl|rfl|rfl|rfl|rfl|rfl|rfl|rfl|rfl|rfl|rfl|rfl|rfl|rfl|rfl <;> rfl

/-- Witness for the C10 theorem at a concrete zeroed-record key. -/
theorem predictNewImage_failure_shape_witness :
    ("thermal_crudo_ratio", DVal.num 0) ∈ defaultOutput "processing_error" ∧
    (predictNewImage [] true ProcOutcome.loadFailure 0 0 "p" "f" none).lookup
      "thermal_crudo_ratio" = some (DVal.num 0) :=
  ⟨by simp [defaultOutput],
   (predictNewImage_failure_shape [] ProcOutcome.loadFailure 0 0 "p" "f"
      none).2.2.2.1 ("thermal_crudo_ratio", DVal.num 0) (by simp [defaultOutput])⟩


theorem bfill_length : ∀ xs : List (Option ℚ), (bfill xs).length = xs.length
  | [] => rfl
  | x :: rest => by
    cases x <;> simp [bfill, bfill_length rest]

theorem ffill_length : ∀ (carry : Option ℚ) (xs : List (Option ℚ)),
    (ffill carry xs).length = xs.length
  | _, [] => rfl
  | carry, x :: rest => by
    cases x <;> simp [ffill, ffill_length]

theorem sigmaTransform_length (w : ℕ) (xs : List (Option ℚ)) :
    (sigmaTransform w xs).length = xs.length := by
  unfold sigmaTransform rollingStd
  rw [ffill_length, bfill_length]
  simp

theorem sigmaName_injective {a b : String} (h : sigmaName a = sigmaName b) :
    a = b := by
  unfold sigmaName at h
  have hd := congrArg String.data h
  rw [String.data_append, String.data_append] at hd
  have hd' := List.append_cancel_left hd
  cases a with
  | mk la =>
    cases b with
    | mk lb =>
      simp only at hd'
      rw [hd']

theorem map_zipWith_update (n c0 : String) (hne : c0 ≠ n) :
    ∀ (rows : List (String → Option ℚ)) (vals : List (Option ℚ)),
      rows.length = vals.length →
      (List.zipWith (fun r v => fun k => if k = n then v else r k) rows
        vals).map (fun r => r c0) = rows.map (fun r => r c0)
  | [], _, _ => by simp
  | r :: rows, [], h => by simp at h
  | r :: rows, v :: vals, h => by
    simp only [List.zipWith_cons_cons, List.map_cons]
    rw [map_zipWith_update n c0 hne rows vals (by simpa using h)]
    simp [if_neg hne]

/-- Invariant of the column loop of `compute_sigma`: with fresh sigma names,
the processed prefix only appends sigma columns and leaves existing column
values untouched. -/
theorem computeSigma_loop (w : ℕ) :
    ∀ (cs : List String) (acc : DFrame),
      (∀ c ∈ cs, sigmaName c ∉ acc.cols) →
      (∀ c ∈ cs, ∀ c' ∈ cs, sigmaName c' ≠ c) →
      cs.Nodup →
      (cs.foldl (fun acc c =>
          if c ∈ acc.cols then
            setCol acc (sigmaName c)
              (sigmaTransform w (acc.rows.map (fun r => r c)))
          else acc) acc).cols =
        acc.cols ++ (cs.filter (fun c => decide (c ∈ acc.cols))).map sigmaName ∧
      (∀ c0 ∈ acc.cols,
        (cs.foldl (fun acc c =>
            if c ∈ acc.cols then
              setCol acc (sigmaName c)
                (sigmaTransform w (acc.rows.map (fun r => r c)))
            else acc) acc).rows.map (fun r => r c0) =
          acc.rows.map (fun r => r c0))
  | [], acc, _, _, _ => by simp
  | c :: cs', acc, h1, h2, hnd => by
    have hnd' := List.nodup_cons.mp hnd
    have hnotin : sigmaName c ∉ acc.cols := h1 c (List.mem_cons_self c cs')
    by_cases hc : c ∈ acc.cols
    · -- the column is present: one sigma column is appended
      have hcols' : (setCol acc (sigmaName c) (sigmaTransform w (acc.rows.map (fun r => r c)))).cols =
          acc.cols ++ [sigmaName c] := by
        simp [setCol, hnotin]
      have hrows' : (setCol acc (sigmaName c) (sigmaTransform w (acc.rows.map (fun r => r c)))).rows =
          List.zipWith (fun r v => fun k => if k = sigmaName c then v else r k)
            acc.rows (sigmaTransform w (acc.rows.map (fun r => r c))) := rfl
      have hlen : acc.rows.length = (sigmaTransform w (acc.rows.map (fun r => r c))).length := by
        rw [sigmaTransform_length]
        simp
      have h1' : ∀ c' ∈ cs',
          sigmaName c' ∉ (setCol acc (sigmaName c) (sigmaTransform w (acc.rows.map (fun r => r c)))).cols := by
        intro c' hc'
        rw [hcols']
        intro hmem
        rcases List.mem_append.mp hmem with hmem | hmem
        · exact h1 c' (List.mem_cons_of_mem c hc') hmem
        · have heq : sigmaName c' = sigmaName c := List.mem_singleton.mp hmem
          exact hnd'.1 (sigmaName_injective heq ▸ hc')
      have h2' : ∀ c' ∈ cs', ∀ c'' ∈ cs', sigmaName c'' ≠ c' := fun c' hc' c'' hc'' =>
        h2 c' (List.mem_cons_of_mem c hc') c'' (List.mem_cons_of_mem c hc'')
      have hIH := computeSigma_loop w cs' (setCol acc (sigmaName c) (sigmaTransform w (acc.rows.map (fun r => r c))))
        h1' h2' hnd'.2
      have hpred : ∀ c' ∈ cs',
          decide (c' ∈ (setCol acc (sigmaName c) (sigmaTransform w (acc.rows.map (fun r => r c)))).cols) =
            decide (c' ∈ acc.cols) := by
        intro c' hc'
        rw [hcols']
        apply decide_eq_decide.mpr
        constructor
        · intro hmem
          rcases List.mem_append.mp hmem with hmem | hmem
          · exact hmem
          · exact absurd (List.mem_singleton.mp hmem).symm
              (h2 c' (List.mem_cons_of_mem c hc') c (List.mem_cons_self c cs'))
        · exact List.mem_append_left _
      have hfil : cs'.filter (fun c' =>
            decide (c' ∈ (setCol acc (sigmaName c) (sigmaTransform w (acc.rows.map (fun r => r c)))).cols)) =
          cs'.filter (fun c' => decide (c' ∈ acc.cols)) :=
        List.filter_congr hpred
      constructor
      · simp only [List.foldl_cons]
        rw [if_pos hc, hIH.1, hfil, hcols',
          List.filter_cons_of_pos (by simpa using hc)]
        simp [List.append_assoc]
      · intro c0 hc0
        have hc0' : c0 ∈ (setCol acc (sigmaName c) (sigmaTransform w (acc.rows.map (fun r => r c)))).cols := by
          rw [hcols']
          exact List.mem_append_left _ hc0
        have hne : c0 ≠ sigmaName c := fun he => hnotin (he ▸ hc0)
        simp only [List.foldl_cons]
        rw [if_pos hc, hIH.2 c0 hc0', hrows',
          map_zipWith_update (sigmaName c) c0 hne acc.rows (sigmaTransform w (acc.rows.map (fun r => r c))) hlen]
    · -- the column is absent: skipped
      have hIH := computeSigma_loop w cs' acc
        (fun c' hc' => h1 c' (List.mem_cons_of_mem c hc'))
        (fun c' hc' c'' hc'' => h2 c' (List.mem_cons_of_mem c hc')
          c'' (List.mem_cons_of_mem c hc''))
        hnd'.2
      constructor
      · simp only [List.foldl_cons]
        rw [if_neg hc, hIH.1,
          List.filter_cons_of_neg (by simpa using hc)]
      · intro c0 hc0
        simp only [List.foldl_cons]
        rw [if_neg hc, hIH.2 c0 hc0]

/-- C9 (amended): when a `Día` column is present, `compute_sigma` reorders
the rows by `Día` (a permutation of the input rows, sorted on the `Día` key);
writing the `sigma_<col>` columns overwrites any like-named existing column,
and only when every `sigma_<col>` name is fresh is the remaining change the
appending of one `sigma_<col>` column per requested column present, with the
column list extended on the right and every pre-existing column's values
those of the sorted input, unmodified. -/
theorem computeSigma_frame (w : ℕ) (df : DFrame) (columns : List String)
    (hdia : "Día" ∈ df.cols)
    (hf : ∀ c ∈ columns, sigmaName c ∉ df.cols)
    (hcc : ∀ c ∈ columns, ∀ c' ∈ columns, sigmaName c' ≠ c)
    (hnd : columns.Nodup) :
    (computeSigma w df columns).cols =
      df.cols ++ (columns.filter (fun c => decide (c ∈ df.cols))).map sigmaName ∧
    (∀ c ∈ df.cols, (computeSigma w df columns).rows.map (fun r => r c) =
      (sortByDia df.rows).map (fun r => r c)) ∧
    (sortByDia df.rows).Perm df.rows ∧
    (sortByDia df.rows).Pairwise (fun a b => diaKey a ≤ diaKey b) := by
  have hloop := computeSigma_loop w columns
    (⟨df.cols, sortByDia df.rows⟩ : DFrame) hf hcc hnd
  have hun : computeSigma w df columns =
      columns.foldl (fun acc c =>
        if c ∈ acc.cols then
          setCol acc (sigmaName c)
            (sigmaTransform w (acc.rows.map (fun r => r c)))
        else acc) (⟨df.cols, sortByDia df.rows⟩ : DFrame) := by
    unfold computeSigma
    rw [if_pos hdia]
  refine ⟨?_, ?_, ?_, ?_⟩
  · rw [hun]
    exact hloop.1
  · intro c hc
    rw [hun]
    exact hloop.2 c hc
  · exact List.perm_insertionSort _ _
  · haveI : IsTotal (String → Option ℚ) (fun a b => diaKey a ≤ diaKey b) :=
      ⟨fun a b => le_total _ _⟩
    haveI : IsTrans (String → Option ℚ) (fun a b => diaKey a ≤ diaKey b) :=
      ⟨fun a b c h1 h2 => le_trans h1 h2⟩
    exact List.sorted_insertionSort _ _

/-- C9 counterexample: on a dataset that already holds a `sigma_Caudal`
column (constant 7), requesting `Caudal` makes `df[sigma_col] = ...` overwrite
that existing column: no column is added (the column list is unchanged) and
the pre-existing column's values change — so "the only change is the addition
of one sigma_<signal> column ... with no existing column removed or modified"
fails.  The stored values are the rolling variance 100 of the modelled
transform; the source stores its square root 10, which likewise differs
from 7. -/
theorem computeSigma_overwrites_existing :
    (computeSigma 5 exDF9b ["Caudal"]).cols = exDF9b.cols ∧
    exDF9b.rows.map (fun r => r "sigma_Caudal") = [some 7, some 7, some 7] ∧
    (computeSigma 5 exDF9b ["Caudal"]).rows.map (fun r => r "sigma_Caudal") =
      [some 100, some 100, some 100] ∧
    (computeSigma 5 exDF9b ["Caudal"]).rows.map (fun r => r "sigma_Caudal") ≠
      exDF9b.rows.map (fun r => r "sigma_Caudal") := by
  have heval : (computeSigma 5 exDF9b ["Caudal"]).rows.map
      (fun r => r "sigma_Caudal") = [some 100, some 100, some 100] := by
    simp [computeSigma, setCol, sortByDia, sigmaName, diaKey, exDF9b, exSRowB,
      List.insertionSort, List.orderedInsert, sigmaTransform, ffill, bfill,
      rollingStd, windowSlice, sampleVar, qmean, List.range, List.range.loop,
      WithTop.coe_le_coe, List.take, List.filterMap, List.map]
    norm_num
  refine ⟨?_, by decide, heval, ?_⟩
  · simp [computeSigma, setCol, sortByDia, sigmaName, diaKey, exDF9b, exSRowB,
      List.insertionSort, List.orderedInsert, List.range, List.range.loop,
      WithTop.coe_le_coe]
  · rw [heval]
    decide

/-- Witness for the C9 theorem on the three-row out-of-order dataset. -/
theorem computeSigma_frame_witness :
    ("Día" ∈ exDF9.cols) ∧
    ((computeSigma 5 exDF9 ["Caudal"]).cols =
      exDF9.cols ++
        ((["Caudal"].filter (fun c => decide (c ∈ exDF9.cols))).map sigmaName)) ∧
    (sortByDia exDF9.rows).Perm exDF9.rows :=
  ⟨by decide,
   (computeSigma_frame 5 exDF9 ["Caudal"] (by decide) (by decide) (by decide)
      (by decide)).1,
   (computeSigma_frame 5 exDF9 ["Caudal"] (by decide) (by decide) (by decide)
      (by decide)).2.2.1⟩

end Petronor
